import Mathlib

/-!
Verification of the RAG subsystem of the catbot repository.

Shallow embedding of the Python sources under `backend/services/rag/`:
`embedding_service.py`, `vector_store.py`, `text_splitter.py`,
`document_processor.py` and `rag_pipeline.py`.  Python floats are modelled
as exact rationals (`ℚ`) except where a square root forces real numbers
(`ℝ`); Python lists are Lean lists, dicts are association lists, and
raised exceptions are `Except` errors.  External libraries
(sentence-transformers, ChromaDB, langchain, the PDF/DOCX readers, the
file system) appear as explicit parameters or small state models, never
as stubs of the repository's own logic.
-/

/-! ## Python string primitives -/

/-- Python `str.strip()` on the character list: drop whitespace from both
ends. -/
def pyStripL (l : List Char) : List Char :=
  ((l.dropWhile Char.isWhitespace).reverse.dropWhile Char.isWhitespace).reverse

/-- Python `str.strip()`. -/
def pyStrip (s : String) : String := ⟨pyStripL s.data⟩

/-- Python slicing `s[:n]` on a string. -/
def pyTake (s : String) (n : ℕ) : String := ⟨s.data.take n⟩

/-- Python `sep.join(parts)`. -/
def joinStr (sep : String) : List String → String
  | [] => ""
  | [x] => x
  | x :: y :: rest => x ++ sep ++ joinStr sep (y :: rest)

/-! ## Python values, metadata dictionaries, exceptions -/

/-- A Python value as it may appear in a metadata dict before
normalisation (`vector_store._process_metadatas`). -/
inductive PyVal where
  | str (v : String)
  | int (v : Int)
  | flt (v : ℚ)
  | boolean (v : Bool)
  | noneV
  | other (reprStr : String)
deriving DecidableEq

/-- A metadata value after ChromaDB normalisation: only str/int/float/bool
survive. -/
inductive MetaVal where
  | str (v : String)
  | int (v : Int)
  | flt (v : ℚ)
  | boolean (v : Bool)
deriving DecidableEq

/-- A metadata dictionary prior to normalisation. -/
abbrev PyMeta : Type := List (String × PyVal)

/-- A normalised metadata dictionary as stored in ChromaDB. -/
abbrev MetaL : Type := List (String × MetaVal)

/-- Dictionary lookup (`d.get(k)`); first binding wins, mirroring unique
keys of a Python dict. -/
def metaGet (m : MetaL) (k : String) : Option MetaVal := List.lookup k m

/-- Python `dict.update`: bindings of `adds` replace bindings of `m`. -/
def dictUpdate (m adds : List (String × PyVal)) : List (String × PyVal) :=
  m.filter (fun kv => (List.lookup kv.1 adds).isNone) ++ adds

/-- The Python exceptions raised by this subsystem. -/
inductive PyError where
  | fileNotFoundError (msg : String)
  | valueError (msg : String)
  | runtimeError (msg : String)
  | isADirectoryError (msg : String)
  | permissionError (msg : String)
deriving DecidableEq

/-- Python `str(e)` on an exception. -/
def errMsg : PyError → String
  | .fileNotFoundError m => m
  | .valueError m => m
  | .runtimeError m => m
  | .isADirectoryError m => m
  | .permissionError m => m

/-! ## EmbeddingService (`embedding_service.py`)

The sentence-transformers model is external; `generate_embeddings` is
parametrised by `enc`, the behaviour of `model.encode` on one batch
(`none` models an exception raised by the library). -/

/-- `EmbeddingService.EMBEDDING_DIMENSION`. -/
def EMBEDDING_DIMENSION : ℕ := 384

/-- A zero vector of the given dimension (`[0.0] * n`). -/
def zeroVec (n : ℕ) : List ℚ := List.replicate n 0

/-- `[text.strip() for text in texts if text and text.strip()]`: the
stripped non-empty inputs, in input order. -/
def nonEmptyStripped (texts : List String) : List String :=
  texts.filterMap
    (fun t => if (pyStrip t).data.isEmpty then none else some (pyStrip t))

/-- Grouping pass behind the slicing loop
`for i in range(0, len(xs), batch_size): xs[i:i+batch_size]`:
consecutive groups of `bs` elements, last group possibly shorter.
`acc` holds the current group in reverse. -/
def batchAccum (bs : ℕ) : List String → List String → List (List String)
  | [], acc => if acc.isEmpty then [] else [acc.reverse]
  | x :: xs, acc =>
    if acc.length + 1 = bs then (x :: acc).reverse :: batchAccum bs xs []
    else batchAccum bs xs (x :: acc)

/-- The batch decomposition of the texts fed to `model.encode`. -/
def pySlices (bs : ℕ) (l : List String) : List (List String) :=
  batchAccum bs l []

/-- The encoding loop over batches; any library exception (`none`)
aborts the whole `try` block. -/
def encodeBatches (enc : List String → Option (List (List ℚ))) :
    List (List String) → Option (List (List ℚ))
  | [] => some []
  | b :: rest =>
    match enc b, encodeBatches enc rest with
    | some e, some r => some (e ++ r)
    | _, _ => none

/-- `EmbeddingService.generate_embeddings(texts, batch_size)`.  Empty
input list returns `[]`; if every input is empty/whitespace the result is
one zero vector per input; otherwise the stripped non-empty inputs are
encoded in batches, and a library exception degrades to one zero vector
per original input. -/
def generate_embeddings (enc : List String → Option (List (List ℚ)))
    (batch_size : ℕ) (texts : List String) : List (List ℚ) :=
  if texts.isEmpty then []
  else
    let ne := nonEmptyStripped texts
    if ne.isEmpty then List.replicate texts.length (zeroVec EMBEDDING_DIMENSION)
    else
      match encodeBatches enc (pySlices batch_size ne) with
      | some es => es
      | none => List.replicate texts.length (zeroVec EMBEDDING_DIMENSION)

/-- Sum of squares of a vector; `np.linalg.norm` is its square root. -/
def sumSq (v : List ℚ) : ℚ := (v.map (fun x => x * x)).sum

/-- `np.dot` of two equal-length vectors (the unequal-length case raises
in numpy and is handled separately in `compute_similarity`). -/
def dotQ (v w : List ℚ) : ℚ := (List.zipWith (fun a b => a * b) v w).sum

/-- `np.linalg.norm(vec)`. -/
noncomputable def normVal (v : List ℚ) : ℝ := Real.sqrt ((sumSq v : ℚ) : ℝ)

open Classical in
/-- `EmbeddingService.compute_similarity(e1, e2)`: 0.0 when either list is
empty; 0.0 when either norm is zero; 0.0 when `np.dot` raises because the
lengths differ (caught by the `except` branch); otherwise the cosine
similarity. -/
noncomputable def compute_similarity (e1 e2 : List ℚ) : ℝ :=
  if e1.isEmpty || e2.isEmpty then 0
  else if normVal e1 = 0 ∨ normVal e2 = 0 then 0
  else if e1.length ≠ e2.length then 0
  else ((dotQ e1 e2 : ℚ) : ℝ) / (normVal e1 * normVal e2)

/-- Python `enumerate` starting at `n`. -/
def enumFromPy (n : ℕ) : List α → List (ℕ × α)
  | [] => []
  | x :: xs => (n, x) :: enumFromPy (n + 1) xs

open Classical in
/-- One step of the stable descending-by-score sort used to model
`list.sort(key=lambda x: x[1], reverse=True)`: the new element `x` goes
before the first element whose score is ≤ its own, hence after every
earlier element of equal score. -/
noncomputable def insertDescStable (x : ℕ × ℝ) :
    List (ℕ × ℝ) → List (ℕ × ℝ)
  | [] => [x]
  | y :: ys => if y.2 ≤ x.2 then x :: y :: ys else y :: insertDescStable x ys

/-- Stable sort, descending by score (model of Python's stable
`list.sort` with `reverse=True`). -/
noncomputable def sortDescStable : List (ℕ × ℝ) → List (ℕ × ℝ)
  | [] => []
  | x :: xs => insertDescStable x (sortDescStable xs)

/-- `EmbeddingService.find_most_similar(query, candidates, top_k)`. -/
noncomputable def find_most_similar (query : List ℚ)
    (candidates : List (List ℚ)) (top_k : ℕ) : List (ℕ × ℝ) :=
  if query.isEmpty || candidates.isEmpty then []
  else
    (sortDescStable
      ((enumFromPy 0 candidates).map
        (fun p => (p.1, compute_similarity query p.2)))).take top_k

/-! ## VectorStore (`vector_store.py`)

The ChromaDB collection is modelled as the list of stored records; the
`collection.add` call itself is assumed to succeed (ChromaDB is
external), so `add_documents` either returns the ids and the extended
collection or raises the `ValueError` of its own length check. -/

/-- One record of the ChromaDB collection. -/
structure ChromaRecord where
  id : String
  document : String
  embedding : List ℚ
  metadata : MetaL
deriving DecidableEq

/-- The persistent collection state. -/
abbrev Store : Type := List ChromaRecord

/-- `VectorStore._process_metadatas` on one value: str/int/float/bool pass
through, `None` becomes `""`, anything else becomes `str(value)`. -/
def processVal : PyVal → MetaVal
  | .str v => .str v
  | .int v => .int v
  | .flt v => .flt v
  | .boolean v => .boolean v
  | .noneV => .str ""
  | .other r => .str r

/-- `VectorStore._process_metadatas`. -/
def processMetadatas (ms : List PyMeta) : List MetaL :=
  ms.map (fun m => m.map (fun kv => (kv.1, processVal kv.2)))

/-- Builds the records appended by `collection.add`. -/
def mkRecords : List String → List String → List (List ℚ) → List MetaL →
    List ChromaRecord
  | id :: ids, t :: ts, e :: es, m :: ms =>
    ⟨id, t, e, m⟩ :: mkRecords ids ts es ms
  | _, _, _, _ => []

/-- `VectorStore.add_documents(texts, embeddings, metadatas, document_ids)`.
`freshIds` supplies the generated UUIDs when `document_ids is None`.
Any empty input sequence returns `[]` unchanged *before* the length
check; only after that does a length mismatch raise `ValueError`. -/
def add_documents (store : Store) (texts : List String)
    (embeddings : List (List ℚ)) (metadatas : List PyMeta)
    (document_ids : Option (List String)) (freshIds : List String) :
    Except PyError (List String × Store) :=
  if texts.isEmpty || embeddings.isEmpty || metadatas.isEmpty then
    .ok ([], store)
  else if texts.length ≠ embeddings.length ∨ texts.length ≠ metadatas.length then
    .error (.valueError "Texts, embeddings, and metadatas must have same length")
  else
    let ids := document_ids.getD freshIds
    .ok (ids, store ++ mkRecords ids texts embeddings (processMetadatas metadatas))

/-- `VectorStore._parse_search_results` score conversion:
`max(0.0, 1.0 - distance / 2.0)`. -/
def similarityScoreOfDistance (d : ℚ) : ℚ := max 0 (1 - d / 2)

/-- A parsed search result (`SearchResult` dataclass). -/
structure SearchResult where
  content : String
  metadata : MetaL
  similarity_score : ℚ
  document_id : String
deriving DecidableEq

/-- Positional alignment of the four result columns returned by a
ChromaDB query (ChromaDB returns them with equal lengths). -/
def zip4 : List String → List String → List MetaL → List ℚ →
    List (String × String × MetaL × ℚ)
  | id :: ids, d :: ds, m :: ms, t :: ts =>
    (id, d, m, t) :: zip4 ids ds ms ts
  | _, _, _, _ => []

/-- `VectorStore._parse_search_results` for one query: pair each returned
id with its document, metadata and distance, converting the distance to a
similarity score. -/
def parse_search_results (ids documents : List String)
    (metadatas : List MetaL) (distances : List ℚ) : List SearchResult :=
  if ids.isEmpty then []
  else
    (zip4 ids documents metadatas distances).map
      (fun r => ⟨r.2.1, r.2.2.1, similarityScoreOfDistance r.2.2.2, r.1⟩)

/-- The filename a record is counted under in
`VectorStore.get_collection_stats`: `metadata.get('filename', 'unknown')`. -/
def filenameOf (m : MetaL) : MetaVal := (metaGet m "filename").getD (.str "unknown")

/-- `VectorStore.get_collection_stats`, as a function of the stored
metadatas: returns `(document_count, total_chunks)`.  The unique-filename
set built by the loop is modelled as a `Finset`. -/
def get_collection_stats (metadatas : List MetaL) : ℕ × ℕ :=
  let total_chunks := metadatas.length
  if 0 < total_chunks then
    let uniq : Finset MetaVal :=
      metadatas.foldl (fun s m => insert (filenameOf m) s) ∅
    (uniq.card, total_chunks)
  else (0, total_chunks)

/-! ## TextSplitter (`text_splitter.py`)

The langchain `RecursiveCharacterTextSplitter` is external: `split_text`
is parametrised by `splitterRaw`, the list of raw chunk strings it
produces.  `_create_text_chunks` (offset tracking) is modelled in full. -/

/-- A produced chunk (`TextChunk` dataclass). -/
structure TextChunk where
  content : String
  metadata : PyMeta
  chunk_index : ℕ
  start_char : ℕ
  end_char : ℕ
deriving DecidableEq

/-- Python `haystack.find(needle, start)`: least index `i ≥ start` at
which `needle` occurs, `none` when there is none. -/
def strFind (hay needle : String) (start : ℕ) : Option ℕ :=
  (List.range (hay.data.length + 1)).find?
    (fun i => decide (start ≤ i) &&
      decide ((hay.data.drop i).take needle.data.length = needle.data))

/-- `TextSplitter._count_sentences`: number of `.`/`!`/`?` characters,
clamped to a minimum of 1. -/
def countSentences (s : String) : ℕ :=
  max 1 ((s.data.filter (fun c => c = '.' || c = '!' || c = '?')).length)

/-- Python `str.split()` (split on whitespace runs) on a char list;
`cur` is the current word in reverse. -/
def pyWordsAux : List Char → List Char → List (List Char)
  | [], cur => if cur.isEmpty then [] else [cur.reverse]
  | c :: cs, cur =>
    if c.isWhitespace then
      if cur.isEmpty then pyWordsAux cs [] else cur.reverse :: pyWordsAux cs []
    else pyWordsAux cs (c :: cur)

/-- `len(s.split())`, the word count stored in chunk metadata. -/
def pyWordCount (s : String) : ℕ := (pyWordsAux s.data []).length

/-- The chunk-local metadata added by `_create_text_chunks`. -/
def chunkLocalMeta (metadata : PyMeta) (chunk_content : String) : PyMeta :=
  dictUpdate metadata
    [("chunk_size", .int chunk_content.length),
     ("word_count", .int (pyWordCount chunk_content)),
     ("sentence_count", .int (countSentences chunk_content)),
     ("original_document",
       match List.lookup "filename" metadata with
       | some (.str v) => .str v
       | some v => v
       | none => .str "unknown")]

/-- The loop of `TextSplitter._create_text_chunks`: resolve each raw
chunk's position (falling back to the running position when `find`
fails), record `start`/`end` offsets around the *untrimmed* chunk, store
the *stripped* content. -/
def createChunksAux (original : String) (metadata : PyMeta) :
    List String → ℕ → ℕ → List TextChunk
  | [], _, _ => []
  | c :: cs, i, pos =>
    let start := (strFind original c pos).getD pos
    { content := pyStrip c
      metadata := chunkLocalMeta metadata c
      chunk_index := i
      start_char := start
      end_char := start + c.data.length } ::
      createChunksAux original metadata cs (i + 1) (start + c.data.length)

/-- `TextSplitter._create_text_chunks(chunks, original_text, metadata)`. -/
def create_text_chunks (chunks : List String) (original : String)
    (metadata : PyMeta) : List TextChunk :=
  createChunksAux original metadata chunks 0 0

/-- `TextSplitter.split_text(text, metadata)`: empty or all-whitespace
text yields no chunks; otherwise the external splitter's raw chunks are
turned into `TextChunk`s. -/
def split_text (splitterRaw : String → List String) (text : String)
    (metadata : PyMeta) : List TextChunk :=
  if (pyStrip text).data.isEmpty then []
  else create_text_chunks (splitterRaw text) text metadata

/-- Per-document chunk statistics (`TextSplitter.get_chunk_stats`);
`none` models the empty dict returned for no chunks. -/
structure ChunkStats where
  total_chunks : ℕ
  avg_chunk_size : ℚ
  min_chunk_size : ℕ
  max_chunk_size : ℕ
  avg_word_count : ℚ
  total_characters : ℕ

/-- `TextSplitter.get_chunk_stats(chunks)`. -/
def get_chunk_stats (chunks : List TextChunk) : Option ChunkStats :=
  if chunks.isEmpty then none
  else
    let sizes : List ℕ := chunks.map (fun c => c.content.length)
    let words := chunks.map
      (fun c => match List.lookup "word_count" c.metadata with
                | some (.int n) => n
                | _ => 0)
    some
      { total_chunks := chunks.length
        avg_chunk_size := ((sizes.sum : ℕ) : ℚ) / (sizes.length : ℚ)
        min_chunk_size := sizes.foldr min (sizes.headD 0)
        max_chunk_size := sizes.foldr max 0
        avg_word_count := ((words.sum : ℤ) : ℚ) / (words.length : ℚ)
        total_characters := sizes.sum }

/-! ## DocumentProcessor (`document_processor.py`)

The file system is a finite map from paths to entries; a file carries its
(already decoded) text and a readability flag.  The PDF and DOCX
extraction engines are external libraries and appear as handler
parameters; plain-text extraction is modelled in full. -/

/-- A file-system entry. -/
inductive FsEntry where
  | file (content : String) (readable : Bool)
  | dir
deriving DecidableEq

/-- The file system visible to the processor. -/
abbrev FileSystem : Type := List (String × FsEntry)

/-- Path lookup (`os.path.exists` is `isSome` of this). -/
def fsLookup (fs : FileSystem) (p : String) : Option FsEntry := List.lookup p fs

/-- The last path component (`Path(p).name`): the characters after the
last slash. -/
def baseName (p : String) : String :=
  ⟨p.data.foldl (fun acc c => if c = '/' then [] else acc ++ [c]) []⟩

/-- Index of the last occurrence of `c` in `l`. -/
def lastIndexOf (l : List Char) (c : Char) : Option ℕ :=
  match l.reverse.findIdx? (fun x => x = c) with
  | some j => some (l.length - 1 - j)
  | none => none

/-- `Path(p).suffix.lower()`: the extension after the last dot of the
last component, empty when the dot is leading or trailing or absent
(the CPython `PurePath.suffix` rule), lowercased. -/
def fileExtOf (p : String) : String :=
  let name := (baseName p).data
  match lastIndexOf name '.' with
  | some i =>
    if 0 < i ∧ i + 1 < name.length then ⟨(name.drop i).map Char.toLower⟩
    else ""
  | none => ""

/-- The MIME type of DOCX files. -/
def docxMime : String :=
  "application/vnd.openxmlformats-officedocument.wordprocessingml.document"

/-- `DocumentProcessor._detect_file_type_by_extension`'s extension map. -/
def extensionMap : List (String × String) :=
  [(".pdf", "application/pdf"),
   (".docx", docxMime),
   (".txt", "text/plain"),
   (".doc", "application/msword"),
   (".rtf", "application/rtf"),
   (".odt", "application/vnd.oasis.opendocument.text")]

/-- `DocumentProcessor._detect_file_type_by_extension`. -/
def detect_file_type (p : String) : String :=
  (List.lookup (fileExtOf p) extensionMap).getD "unknown"

/-- The keys of `DocumentProcessor.SUPPORTED_FORMATS` (the MIME types
with a registered handler method). -/
def SUPPORTED_FORMATS : List String :=
  ["application/pdf", docxMime, "text/plain"]

/-- Python `len(content.splitlines())` (newline variants other than
`'\n'` are not modelled). -/
def pyNumLines (s : String) : ℕ :=
  if s.data.isEmpty then 0
  else s.data.count '\n' + (if s.data.getLast? = some '\n' then 0 else 1)

/-- `DocumentProcessor._process_txt`: read the file as text; opening a
directory raises `IsADirectoryError`, an unreadable file raises
`PermissionError`, a vanished file raises `FileNotFoundError`. -/
def process_txt (fs : FileSystem) (p : String) :
    Except PyError (String × PyMeta) :=
  match fsLookup fs p with
  | some (.file c true) =>
    .ok (c, [("lines", .int (pyNumLines c)), ("characters", .int c.length)])
  | some (.file _ false) => .error (.permissionError ("Permission denied: " ++ p))
  | some .dir => .error (.isADirectoryError ("Is a directory: " ++ p))
  | none => .error (.fileNotFoundError ("No such file or directory: " ++ p))

/-- `DocumentProcessor._extract_base_metadata` (the `stat` timestamps are
not modelled and appear as 0). -/
def extract_base_metadata (fs : FileSystem) (p : String) : PyMeta :=
  [("filename", .str (baseName p)),
   ("file_size", .int (match fsLookup fs p with
                       | some (.file c _) => (c.length : Int)
                       | _ => 0)),
   ("created_at", .flt 0),
   ("modified_at", .flt 0),
   ("file_extension", .str (fileExtOf p))]

/-- The extracted content (`DocumentContent` dataclass). -/
structure DocumentContent where
  text : String
  metadata : PyMeta
  file_type : String
deriving DecidableEq

/-- `DocumentProcessor.process_document(file_path)`: `FileNotFoundError`
when the path does not exist, `ValueError "Unsupported file type: …"`
when the detected type has no handler, otherwise dispatch to the
per-type extractor and append the base metadata.  `pdfH` and `docxH`
are the external PDF/DOCX extraction strategies. -/
def dp_process_document (fs : FileSystem)
    (pdfH docxH : String → Except PyError (String × PyMeta))
    (path : String) : Except PyError DocumentContent :=
  if (fsLookup fs path).isNone then
    .error (.fileNotFoundError ("File not found: " ++ path))
  else
    let ft := detect_file_type path
    if ft ∈ SUPPORTED_FORMATS then
      match (if ft = "application/pdf" then pdfH path
             else if ft = "text/plain" then process_txt fs path
             else docxH path) with
      | .error e => .error e
      | .ok (text, md) =>
        .ok ⟨text, dictUpdate md (extract_base_metadata fs path), ft⟩
    else .error (.valueError ("Unsupported file type: " ++ ft))

/-! ## RAGPipeline (`rag_pipeline.py`) -/

/-- Python `str(value)` of a raw metadata value, used where the pipeline
interpolates a metadata value into a string. -/
def pyValStr : PyVal → String
  | .str v => v
  | .int n => toString n
  | .flt q => toString q
  | .boolean b => if b then "True" else "False"
  | .noneV => "None"
  | .other r => r

/-- String form of a normalised metadata value. -/
def metaValStr : MetaVal → String
  | .str v => v
  | .int n => toString n
  | .flt q => toString q
  | .boolean b => if b then "True" else "False"

/-- `metadata.get(key, default)` rendered as a string. -/
def metaGetStrD (m : MetaL) (k d : String) : String :=
  match metaGet m k with
  | some v => metaValStr v
  | none => d

/-- The structured outcome dict returned by
`RAGPipeline.process_document`; keys absent from a given return site are
`none`. -/
structure Outcome where
  success : Bool
  error : Option String
  document_id : Option String
  chunks_added : ℕ
  total_characters : Option ℕ
  file_type : Option String
  chunk_stats : Option ChunkStats
  embedding_dimension : Option ℕ

/-- The outcome built in the `except` branch of `process_document`. -/
def failOutcome (e : String) : Outcome :=
  ⟨false, some e, none, 0, some 0, some "unknown", none, none⟩

/-- The outcome returned when chunking yields nothing. -/
def noChunksOutcome : Outcome :=
  ⟨false, some "No chunks generated from document", none, 0, none, none, none, none⟩

/-- The per-chunk metadata enrichment of `process_document` step 4. -/
def enrichChunkMeta (embedding_model : String) (c : TextChunk) : PyMeta :=
  dictUpdate c.metadata
    [("chunk_index", .int c.chunk_index),
     ("start_char", .int c.start_char),
     ("end_char", .int c.end_char),
     ("embedding_model", .str embedding_model)]

/-- The body of the `try` block of `RAGPipeline.process_document`:
extract, chunk, embed, store.  An error anywhere is caught by the
`except` branch of the caller. -/
def ragTryBody (fs : FileSystem)
    (pdfH docxH : String → Except PyError (String × PyMeta))
    (splitterRaw : String → List String)
    (enc : List String → Option (List (List ℚ)))
    (store : Store) (freshIds : List String)
    (embedding_model : String) (path : String) :
    Except PyError (Outcome × Store) :=
  match dp_process_document fs pdfH docxH path with
  | .error e => .error e
  | .ok dc =>
    let chunks := split_text splitterRaw dc.text dc.metadata
    if chunks.isEmpty then .ok (noChunksOutcome, store)
    else
      let chunk_texts := chunks.map (fun c => c.content)
      let embeddings := generate_embeddings enc 32 chunk_texts
      let chunk_metadatas := chunks.map (enrichChunkMeta embedding_model)
      match add_documents store chunk_texts embeddings chunk_metadatas none freshIds with
      | .error e => .error e
      | .ok (_, store2) =>
        .ok
          ({ success := true
             error := none
             document_id := some (pyValStr
               ((List.lookup "filename" dc.metadata).getD (.str "unknown")))
             chunks_added := chunks.length
             total_characters := some dc.text.length
             file_type := some dc.file_type
             chunk_stats := get_chunk_stats chunks
             embedding_dimension := some EMBEDDING_DIMENSION }, store2)

/-- `RAGPipeline.process_document(file_path)`.  `initOk` is whether the
pipeline is initialized or auto-initialization succeeds:
`_ensure_initialized` runs *outside* the `try` block and raises
`RuntimeError` when it fails; inside the `try`, every error becomes a
failure outcome. -/
def rag_process_document (initOk : Bool) (fs : FileSystem)
    (pdfH docxH : String → Except PyError (String × PyMeta))
    (splitterRaw : String → List String)
    (enc : List String → Option (List (List ℚ)))
    (store : Store) (freshIds : List String)
    (embedding_model : String) (path : String) :
    Except PyError (Outcome × Store) :=
  if initOk then
    match ragTryBody fs pdfH docxH splitterRaw enc store freshIds embedding_model path with
    | .ok r => .ok r
    | .error e => .ok (failOutcome (errMsg e), store)
  else .error (.runtimeError "RAG pipeline not initialized")

/-- The formatted entry for one search result in
`RAGPipeline.generate_context`:
`"[Source: <filename>]\n<stripped content>\n"`. -/
def formattedEntry (r : SearchResult) : String :=
  "[Source: " ++ metaGetStrD r.metadata "filename" "Unknown source" ++ "]\n"
    ++ pyStrip r.content ++ "\n"

/-- The packing loop of `RAGPipeline.generate_context`: accumulate
formatted entries while they fit; at the first overflow append a
truncated, ellipsis-terminated entry when more than 100 characters of
budget remain, then stop.  `cur` is `current_length`, the sum of the
lengths of the entries taken so far (the join separators are *not*
counted). -/
def buildParts (maxLen : ℕ) : List SearchResult → ℕ → List String
  | [], _ => []
  | r :: rs, cur =>
    let fc := formattedEntry r
    if maxLen < cur + fc.length then
      if 100 < maxLen - cur then [pyTake fc (maxLen - cur - 3) ++ "..."] else []
    else fc :: buildParts maxLen rs (cur + fc.length)

/-- `RAGPipeline.generate_context` given the ranked search results of the
query flow: pack entries and join them with the visible separator
`"\n---\n"`. -/
def generate_context (results : List SearchResult) (maxLen : ℕ) : String :=
  if results.isEmpty then "" else joinStr "\n---\n" (buildParts maxLen results 0)

/-! ## Claim C3: `add_documents` length mismatch -/

/-- C3 (counterexample).  The claim says a length mismatch always raises
`LengthMismatch`; but `add_documents` returns `[]` normally whenever any
of the three sequences is empty, even though the lengths (here 0, 1, 1)
differ. -/
theorem claim_C3_counterexample :
    add_documents [] [] [[(1 : ℚ)]] [([] : PyMeta)] none [] = .ok ([], []) ∧
    ([] : List String).length ≠ [[(1 : ℚ)]].length := by
  constructor
  · rfl
  · decide

/-- C3 (amended): when the three input sequences are all non-empty and
their lengths differ, `add_documents` raises the `ValueError` of its
length check; with an empty input sequence it instead returns `[]`
without touching the store. -/
theorem claim_C3_length_mismatch (store : Store) (texts : List String)
    (embeddings : List (List ℚ)) (metadatas : List PyMeta)
    (ids : Option (List String)) (fresh : List String)
    (ht : texts ≠ []) (he : embeddings ≠ []) (hm : metadatas ≠ [])
    (hlen : texts.length ≠ embeddings.length ∨ texts.length ≠ metadatas.length) :
    add_documents store texts embeddings metadatas ids fresh =
      .error (.valueError "Texts, embeddings, and metadatas must have same length") := by
  have h1 : (texts.isEmpty || embeddings.isEmpty || metadatas.isEmpty) = false := by
    simp [List.isEmpty_iff, ht, he, hm]
  unfold add_documents
  rw [h1]
  simp only [Bool.false_eq_true, if_false]
  exact if_pos hlen

/-- C3 witness: the amended theorem applied at a concrete mismatched
call. -/
theorem claim_C3_witness :
    add_documents [] ["t"] [[(1 : ℚ)], [2]] [([] : PyMeta)] none [] =
      .error (.valueError "Texts, embeddings, and metadatas must have same length") :=
  claim_C3_length_mismatch [] ["t"] [[(1 : ℚ)], [2]] [([] : PyMeta)] none []
    (by decide) (by decide) (by decide) (Or.inl (by decide))

/-! ## Claim C7: `compute_similarity` is total and zero-safe -/

/-- C7: `compute_similarity` never divides by zero: whenever either
vector is empty or has zero magnitude it returns 0.0.  (Totality holds by
construction: the embedding is a total function, mirroring the fact that
every raising path of the Python code is caught by its `except` branch.) -/
theorem claim_C7_zero_safe (e1 e2 : List ℚ)
    (h : e1 = [] ∨ e2 = [] ∨ normVal e1 = 0 ∨ normVal e2 = 0) :
    compute_similarity e1 e2 = 0 := by
  rcases h with h | h | hn
  · subst h; simp [compute_similarity]
  · subst h; simp [compute_similarity]
  · unfold compute_similarity
    by_cases h1 : (e1.isEmpty || e2.isEmpty) = true
    · rw [if_pos h1]
    · rw [if_neg h1, if_pos hn]

/-- C7 witness: the zero vector against `[1]`. -/
theorem claim_C7_witness : compute_similarity [(0 : ℚ)] [(1 : ℚ)] = 0 :=
  claim_C7_zero_safe [(0 : ℚ)] [(1 : ℚ)]
    (Or.inr (Or.inr (Or.inl (by simp [normVal, sumSq]))))

/-! ## Claim C10: `get_collection_stats` distinct-document count -/

/-- The unique-filename loop of `get_collection_stats` builds exactly the
finite set of filenames. -/
theorem foldl_insert_filenames (l : List MetaL) :
    ∀ s : Finset MetaVal,
      l.foldl (fun s m => insert (filenameOf m) s) s =
        (l.map filenameOf).toFinset ∪ s := by
  induction l with
  | nil => intro s; simp
  | cons m t ih =>
    intro s
    rw [List.foldl_cons, ih]
    ext x
    simp only [Finset.mem_union, Finset.mem_insert, List.mem_toFinset,
      List.map_cons, List.mem_cons]
    tauto

/-- C10: `document_count` equals the number of distinct values of the
`filename` metadata key over all records, a record without the key being
counted as the single name `"unknown"`; an empty collection reports 0
(both branches are covered by the same distinct-count formula, since the
distinct count of no records is 0). -/
theorem claim_C10_document_count (metadatas : List MetaL) :
    (get_collection_stats metadatas).1 = (metadatas.map filenameOf).toFinset.card ∧
    (get_collection_stats metadatas).2 = metadatas.length := by
  cases metadatas with
  | nil => simp [get_collection_stats]
  | cons m t =>
    simp [get_collection_stats, foldl_insert_filenames, Finset.union_empty]
    rw [Finset.union_comm, ← Finset.insert_eq]

/-! ## Claim C6: search scores lie in [0,1], monotone in distance,
descending -/

/-- The score map never goes below 0. -/
theorem similarityScore_nonneg (d : ℚ) : 0 ≤ similarityScoreOfDistance d :=
  le_max_left 0 _

/-- The score map never exceeds 1 on a nonnegative distance. -/
theorem similarityScore_le_one (d : ℚ) (hd : 0 ≤ d) :
    similarityScoreOfDistance d ≤ 1 := by
  unfold similarityScoreOfDistance
  rw [max_le_iff]
  constructor
  · norm_num
  · linarith

/-- A smaller distance yields a score at least as large. -/
theorem similarityScore_antitone {d1 d2 : ℚ} (h : d1 ≤ d2) :
    similarityScoreOfDistance d2 ≤ similarityScoreOfDistance d1 := by
  unfold similarityScoreOfDistance
  apply max_le_max le_rfl
  linarith

/-- The distance component of an element of `zip4` comes from the
distance column. -/
theorem mem_zip4_dists {x : String × String × MetaL × ℚ} :
    ∀ (ids docs : List String) (metas : List MetaL) (dists : List ℚ),
      x ∈ zip4 ids docs metas dists → x.2.2.2 ∈ dists := by
  intro ids
  induction ids with
  | nil => intro docs metas dists h; simp [zip4] at h
  | cons i it ih =>
    intro docs metas dists h
    match docs, metas, dists with
    | [], _, _ => simp [zip4] at h
    | _ :: _, [], _ => simp [zip4] at h
    | _ :: _, _ :: _, [] => simp [zip4] at h
    | d :: dt, m :: mt, t :: tt =>
      simp only [zip4, List.mem_cons] at h
      rcases h with h | h
      · subst h; exact List.mem_cons_self _ _
      · exact List.mem_cons_of_mem _ (ih dt mt tt h)

/-- Ascending distances map to descending similarity scores through the
row constructor of `parse_search_results`. -/
theorem pairwise_parse_aux :
    ∀ (ids docs : List String) (metas : List MetaL) (dists : List ℚ),
      dists.Pairwise (· ≤ ·) →
      ((zip4 ids docs metas dists).map
          (fun r => SearchResult.mk r.2.1 r.2.2.1
            (similarityScoreOfDistance r.2.2.2) r.1)).Pairwise
        (fun a b => b.similarity_score ≤ a.similarity_score) := by
  intro ids
  induction ids with
  | nil => intro docs metas dists _; simp [zip4]
  | cons i it ih =>
    intro docs metas dists hp
    match docs, metas, dists with
    | [], _, _ => simp [zip4]
    | _ :: _, [], _ => simp [zip4]
    | _ :: _, _ :: _, [] => simp [zip4]
    | d :: dt, m :: mt, t :: tt =>
      rw [List.pairwise_cons] at hp
      simp only [zip4, List.map_cons]
      refine List.Pairwise.cons ?_ (ih dt mt tt hp.2)
      intro y hy
      rcases List.mem_map.mp hy with ⟨x, hx, rfl⟩
      exact similarityScore_antitone (hp.1 _ (mem_zip4_dists it dt mt tt hx))

/-- C6: for nonnegative, ascending native distances (ChromaDB's cosine
distance contract), every parsed result's score lies in `[0,1]`, the
distance-to-score map is monotone, and the parsed results are ordered
descending by score. -/
theorem claim_C6_search_scores (ids docs : List String) (metas : List MetaL)
    (dists : List ℚ) (hnn : ∀ d ∈ dists, 0 ≤ d)
    (hsorted : dists.Pairwise (· ≤ ·)) :
    (∀ r ∈ parse_search_results ids docs metas dists,
        0 ≤ r.similarity_score ∧ r.similarity_score ≤ 1) ∧
    (parse_search_results ids docs metas dists).Pairwise
      (fun a b => b.similarity_score ≤ a.similarity_score) ∧
    (∀ d1 d2 : ℚ, d1 ≤ d2 →
        similarityScoreOfDistance d2 ≤ similarityScoreOfDistance d1) := by
  refine ⟨?_, ?_, fun d1 d2 h => similarityScore_antitone h⟩
  · intro r hr
    unfold parse_search_results at hr
    by_cases hids : ids.isEmpty
    · simp [hids] at hr
    · rw [if_neg (by simp [hids])] at hr
      rcases List.mem_map.mp hr with ⟨x, hx, rfl⟩
      exact ⟨similarityScore_nonneg _,
        similarityScore_le_one _ (hnn _ (mem_zip4_dists ids docs metas dists hx))⟩
  · unfold parse_search_results
    by_cases hids : ids.isEmpty
    · simp [hids]
    · rw [if_neg (by simp [hids])]
      exact pairwise_parse_aux ids docs metas dists hsorted

/-- C6 witness: two results at distances 0 and 2. -/
theorem claim_C6_witness :
    (∀ r ∈ parse_search_results ["a", "b"] ["x", "y"] [[], []] [0, 2],
        0 ≤ r.similarity_score ∧ r.similarity_score ≤ 1) ∧
    (parse_search_results ["a", "b"] ["x", "y"] [[], []] [0, 2]).Pairwise
      (fun a b => b.similarity_score ≤ a.similarity_score) ∧
    (∀ d1 d2 : ℚ, d1 ≤ d2 →
        similarityScoreOfDistance d2 ≤ similarityScoreOfDistance d1) :=
  claim_C6_search_scores ["a", "b"] ["x", "y"] [[], []] [0, 2]
    (by decide) (by decide)

/-! ## Claim C1: batch embedding count and order -/

/-- Flattening the batch decomposition recovers the input texts. -/
theorem batchAccum_flatten (bs : ℕ) :
    ∀ (l acc : List String), (batchAccum bs l acc).flatten = acc.reverse ++ l := by
  intro l
  induction l with
  | nil =>
    intro acc
    by_cases h : acc.isEmpty
    · simp [batchAccum, h, List.isEmpty_iff.mp h]
    · simp [batchAccum, h]
  | cons x xs ih =>
    intro acc
    by_cases h : acc.length + 1 = bs
    · simp [batchAccum, h, ih]
    · simp [batchAccum, h, ih (x :: acc)]

/-- When the external encoder maps each text of a batch to its embedding,
the batched encoding loop maps every text of every batch. -/
theorem encodeBatches_map (enc : List String → Option (List (List ℚ)))
    (f : String → List ℚ) (henc : ∀ b, enc b = some (b.map f)) :
    ∀ bs : List (List String),
      encodeBatches enc bs = some (bs.flatten.map f) := by
  intro bs
  induction bs with
  | nil => simp [encodeBatches]
  | cons b rest ih =>
    simp [encodeBatches, henc b, ih, List.flatten_cons, List.map_append]

/-- C1 (amended): when the encoder returns one embedding per text of each
batch (as sentence-transformers does), `generate_embeddings` returns `[]`
for no inputs, one 384-dimension zero vector *per input* when every input
is empty or whitespace-only, and otherwise exactly one embedding per
*stripped non-empty* input in input order — empty inputs of a mixed batch
are dropped, not zero-filled. -/
theorem claim_C1_embeddings_shape (enc : List String → Option (List (List ℚ)))
    (f : String → List ℚ) (texts : List String)
    (henc : ∀ b, enc b = some (b.map f)) :
    generate_embeddings enc 32 texts =
      if texts.isEmpty then []
      else if (nonEmptyStripped texts).isEmpty then
        List.replicate texts.length (zeroVec EMBEDDING_DIMENSION)
      else (nonEmptyStripped texts).map f := by
  unfold generate_embeddings
  cases h1 : texts.isEmpty
  · cases h2 : (nonEmptyStripped texts).isEmpty
    · simp only [h1, h2, Bool.false_eq_true, if_false]
      rw [pySlices, encodeBatches_map enc f henc,
        batchAccum_flatten 32 (nonEmptyStripped texts) []]
      simp
    · simp only [h1, h2, if_true, Bool.false_eq_true, if_false]
  · simp only [h1, if_true]

/-- The encoder used for the C1 witness and counterexample: one
384-dimension vector per text of the batch, as the real model produces. -/
def zeroEnc : List String → Option (List (List ℚ)) :=
  fun b => some (b.map (fun t => zeroFun t))
where
  zeroFun (_ : String) : List ℚ := zeroVec EMBEDDING_DIMENSION

set_option maxRecDepth 40000 in
/-- C1 witness: the amended theorem applied to a concrete mixed batch;
the whitespace-only input is dropped and two embeddings come back for
three inputs. -/
theorem claim_C1_witness :
    generate_embeddings zeroEnc 32 ["a", " ", "bc"] =
      [zeroVec EMBEDDING_DIMENSION, zeroVec EMBEDDING_DIMENSION] := by
  have h := claim_C1_embeddings_shape zeroEnc zeroEnc.zeroFun ["a", " ", "bc"]
    (fun b => rfl)
  rw [h]
  decide

set_option maxRecDepth 40000 in
/-- C1 (counterexample).  The claim promises exactly one vector per input
even when some inputs are empty; on the batch `["", "a"]` with an encoder
returning one vector per text, `generate_embeddings` returns a single
vector, not two. -/
theorem claim_C1_counterexample :
    (generate_embeddings zeroEnc 32 ["", "a"]).length ≠ 2 := by
  decide

/-! ## Claim C2: context assembly budget -/

/-- The combined length of a list of strings (what `current_length`
tracks: entry lengths without separators). -/
def sumLens (parts : List String) : ℕ := (parts.map String.length).sum

/-- Length of a Python slice. -/
theorem pyTake_length (s : String) (n : ℕ) :
    (pyTake s n).length = min n s.length := by
  show (s.data.take n).length = min n s.data.length
  exact List.length_take n s.data

/-- Length of a Python `sep.join`. -/
theorem joinStr_length (sep : String) :
    ∀ parts, (joinStr sep parts).length =
      sumLens parts + sep.length * (parts.length - 1) := by
  intro parts
  induction parts with
  | nil => simp [joinStr, sumLens]
  | cons x t ih =>
    cases t with
    | nil => simp [joinStr, sumLens]
    | cons y r =>
      simp only [joinStr] at ih ⊢
      rw [String.length_append, String.length_append, ih]
      simp only [sumLens, List.map_cons, List.sum_cons, List.length_cons,
        Nat.add_sub_cancel]
      ring

/-- The packing loop never lets the tracked entry lengths overrun the
budget: starting from `cur ≤ maxLen`, the entries it still adds fit in
`maxLen - cur`. -/
theorem buildParts_sum (maxLen : ℕ) :
    ∀ (rs : List SearchResult) (cur : ℕ), cur ≤ maxLen →
      cur + sumLens (buildParts maxLen rs cur) ≤ maxLen := by
  intro rs
  induction rs with
  | nil => intro cur h; simpa [buildParts, sumLens] using h
  | cons r rt ih =>
    intro cur hc
    unfold buildParts
    by_cases h1 : maxLen < cur + (formattedEntry r).length
    · rw [if_pos h1]
      by_cases h2 : 100 < maxLen - cur
      · rw [if_pos h2]
        have hfc : maxLen - cur - 3 ≤ (formattedEntry r).length := by omega
        have htk : (pyTake (formattedEntry r) (maxLen - cur - 3)).length =
            maxLen - cur - 3 := by
          rw [pyTake_length]; omega
        have hdots : ("..." : String).length = 3 := rfl
        simp only [sumLens, List.map_cons, List.map_nil, List.sum_cons,
          List.sum_nil, String.length_append, htk, hdots]
        omega
      · rw [if_neg h2]
        simpa [sumLens] using hc
    · rw [if_neg h1]
      have h1' : cur + (formattedEntry r).length ≤ maxLen := by omega
      have h := ih (cur + (formattedEntry r).length) h1'
      simp only [sumLens, List.map_cons, List.sum_cons] at h ⊢
      omega

/-- Every packed entry is either the full formatted entry of some result
or an ellipsis-terminated truncation of one. -/
theorem buildParts_shape (maxLen : ℕ) :
    ∀ (rs : List SearchResult) (cur : ℕ), ∀ p ∈ buildParts maxLen rs cur,
      (∃ r ∈ rs, p = formattedEntry r) ∨
      (∃ r ∈ rs, ∃ k, p = pyTake (formattedEntry r) k ++ "...") := by
  intro rs
  induction rs with
  | nil => intro cur p hp; simp [buildParts] at hp
  | cons r rt ih =>
    intro cur p hp
    unfold buildParts at hp
    by_cases h1 : maxLen < cur + (formattedEntry r).length
    · rw [if_pos h1] at hp
      by_cases h2 : 100 < maxLen - cur
      · rw [if_pos h2] at hp
        rcases List.mem_singleton.mp hp with rfl
        exact Or.inr ⟨r, List.mem_cons_self r rt, maxLen - cur - 3, rfl⟩
      · rw [if_neg h2] at hp
        simp at hp
    · rw [if_neg h1] at hp
      rcases List.mem_cons.mp hp with rfl | hp
      · exact Or.inl ⟨r, List.mem_cons_self r rt, rfl⟩
      · rcases ih (cur + (formattedEntry r).length) p hp with ⟨s, hs, hps⟩ | ⟨s, hs, k, hps⟩
        · exact Or.inl ⟨s, List.mem_cons_of_mem r hs, hps⟩
        · exact Or.inr ⟨s, List.mem_cons_of_mem r hs, k, hps⟩

/-- C2 (amended): the packing loop bounds the *sum of the entry lengths*
by `maxContextLength`; the returned string additionally contains the
five-character `"\n---\n"` separator between consecutive entries, which
the loop does not count, so the total length is only bounded by
`maxContextLength + 5 * (entries - 1)` and can exceed the budget.  The
entries are the formatted results in ranking order, possibly ending with
one ellipsis-terminated truncated entry. -/
theorem claim_C2_context_budget (results : List SearchResult) (maxLen : ℕ) :
    sumLens (buildParts maxLen results 0) ≤ maxLen ∧
    (generate_context results maxLen).length ≤
      maxLen + 5 * ((buildParts maxLen results 0).length - 1) ∧
    (∀ p ∈ buildParts maxLen results 0,
      (∃ r ∈ results, p = formattedEntry r) ∨
      (∃ r ∈ results, ∃ k, p = pyTake (formattedEntry r) k ++ "...")) := by
  have hsum : sumLens (buildParts maxLen results 0) ≤ maxLen := by
    simpa using buildParts_sum maxLen results 0 (Nat.zero_le maxLen)
  refine ⟨hsum, ?_, buildParts_shape maxLen results 0⟩
  unfold generate_context
  by_cases h : results.isEmpty
  · rw [if_pos (by simp [h])]
    simp
  · rw [if_neg (by simp [h])]
    rw [joinStr_length]
    have hsep : ("\n---\n" : String).length = 5 := rfl
    rw [hsep]
    omega

/-- The three ranked results used in the C2 counterexample: each formats
to a 30-character entry. -/
def c2Results : List SearchResult :=
  [⟨"0123456789012345x", [("filename", .str "A")], 0, "i1"⟩,
   ⟨"0123456789012345x", [("filename", .str "A")], 0, "i2"⟩,
   ⟨"0123456789012345x", [("filename", .str "A")], 0, "i3"⟩]

/-- C2 (counterexample).  With budget 61 and three 30-character entries
(combined formatted length 90 > 61), the loop packs two entries whose
lengths sum to 60 ≤ 61, but the returned string is 65 characters long —
the claim that the result never exceeds `maxContextLength` is false,
because the join separators are not counted against the budget. -/
theorem claim_C2_counterexample :
    61 < (generate_context c2Results 61).length ∧
    61 < sumLens (c2Results.map formattedEntry) := by
  decide

/-! ## Claim C9: chunk spans cover the untrimmed chunk -/

/-- Stripping never lengthens a string. -/
theorem pyStrip_length_le (s : String) : (pyStrip s).length ≤ s.length := by
  show (pyStripL s.data).length ≤ s.data.length
  unfold pyStripL
  have h1 : ((s.data.dropWhile Char.isWhitespace).reverse.dropWhile
      Char.isWhitespace).length ≤
      (s.data.dropWhile Char.isWhitespace).reverse.length :=
    (List.dropWhile_sublist _).length_le
  have h2 : (s.data.dropWhile Char.isWhitespace).length ≤ s.data.length :=
    (List.dropWhile_sublist _).length_le
  rw [List.length_reverse]
  rw [List.length_reverse] at h1
  omega

/-- The offset loop pairs each raw chunk with a produced `TextChunk`
whose span covers exactly the untrimmed chunk. -/
theorem createChunksAux_spans (original : String) (metadata : PyMeta) :
    ∀ (chunks : List String) (i pos : ℕ),
      List.Forall₂
        (fun (raw : String) (tc : TextChunk) =>
          tc.end_char = tc.start_char + raw.length ∧
          tc.content = pyStrip raw ∧
          tc.content.length ≤ tc.end_char - tc.start_char)
        chunks (createChunksAux original metadata chunks i pos) := by
  intro chunks
  induction chunks with
  | nil => intro i pos; simp [createChunksAux]
  | cons c cs ih =>
    intro i pos
    unfold createChunksAux
    refine List.Forall₂.cons ⟨rfl, rfl, ?_⟩ (ih (i + 1) _)
    simpa using pyStrip_length_le c

/-- C9: every chunk records `end_char = start_char + length(raw chunk)`
(the untrimmed chunk string) while storing the trimmed content, so the
span length is at least the stored content's length; and a chunk with
surrounding whitespace (raw `" a "`) makes the excess strict. -/
theorem claim_C9_chunk_spans (chunks : List String) (original : String)
    (metadata : PyMeta) :
    List.Forall₂
      (fun (raw : String) (tc : TextChunk) =>
        tc.end_char = tc.start_char + raw.length ∧
        tc.content = pyStrip raw ∧
        tc.content.length ≤ tc.end_char - tc.start_char)
      chunks (create_text_chunks chunks original metadata) ∧
    (∃ tc, (create_text_chunks [" a "] " a " []).head? = some tc ∧
      tc.content.length < tc.end_char - tc.start_char) := by
  constructor
  · exact createChunksAux_spans original metadata chunks 0 0
  · refine ⟨_, rfl, ?_⟩
    decide

/-! ## Claim C5: `NotFound` and `UnsupportedType` conditions -/

/-- On an existing path, the per-type dispatch never produces a
`FileNotFoundError` and never produces the `Unsupported file type`
`ValueError`, provided the external PDF/DOCX engines do not (the text
handler is proved not to). -/
theorem dp_dispatch_error_shape (fs : FileSystem)
    (pdfH docxH : String → Except PyError (String × PyMeta))
    (path : String) (entry : FsEntry) (hfs : fsLookup fs path = some entry)
    (hp1 : ∀ p m, pdfH p ≠ .error (.fileNotFoundError m))
    (hp2 : ∀ p m, pdfH p ≠ .error (.valueError ("Unsupported file type: " ++ m)))
    (hd1 : ∀ p m, docxH p ≠ .error (.fileNotFoundError m))
    (hd2 : ∀ p m, docxH p ≠ .error (.valueError ("Unsupported file type: " ++ m)))
    (e : PyError)
    (he : (if detect_file_type path = "application/pdf" then pdfH path
           else if detect_file_type path = "text/plain" then process_txt fs path
           else docxH path) = .error e) :
    (∀ m, e ≠ .fileNotFoundError m) ∧
    (∀ m, e ≠ .valueError ("Unsupported file type: " ++ m)) := by
  split_ifs at he with h1 h2
  · exact ⟨fun m hm => hp1 path m (hm ▸ he),
      fun m hm => hp2 path m (hm ▸ he)⟩
  · unfold process_txt at he
    rw [hfs] at he
    rcases entry with ⟨c, rd⟩ | _
    · cases rd
      · have h := Except.error.inj he
        subst h
        exact ⟨fun m hm => by simp at hm, fun m hm => by simp at hm⟩
      · simp at he
    · have h := Except.error.inj he
      subst h
      exact ⟨fun m hm => by simp at hm, fun m hm => by simp at hm⟩
  · exact ⟨fun m hm => hd1 path m (hm ▸ he),
      fun m hm => hd2 path m (hm ▸ he)⟩

/-- C5 (amended): `extract` fails with `NotFound` exactly when the path
does not *exist* — an existing directory or unreadable file instead
reaches type dispatch and extraction, failing differently — and fails
with `UnsupportedType` exactly when the path exists and the detected
media type has no registered handler (assuming the external engines do
not forge those two errors). -/
theorem claim_C5_extract_errors (fs : FileSystem)
    (pdfH docxH : String → Except PyError (String × PyMeta)) (path : String)
    (hp1 : ∀ p m, pdfH p ≠ .error (.fileNotFoundError m))
    (hp2 : ∀ p m, pdfH p ≠ .error (.valueError ("Unsupported file type: " ++ m)))
    (hd1 : ∀ p m, docxH p ≠ .error (.fileNotFoundError m))
    (hd2 : ∀ p m, docxH p ≠ .error (.valueError ("Unsupported file type: " ++ m))) :
    ((∃ m, dp_process_document fs pdfH docxH path = .error (.fileNotFoundError m)) ↔
      fsLookup fs path = none) ∧
    ((∃ m, dp_process_document fs pdfH docxH path =
        .error (.valueError ("Unsupported file type: " ++ m))) ↔
      (fsLookup fs path).isSome ∧ detect_file_type path ∉ SUPPORTED_FORMATS) := by
  rcases hfs : fsLookup fs path with _ | entry
  · have hres : dp_process_document fs pdfH docxH path =
        .error (.fileNotFoundError ("File not found: " ++ path)) := by
      unfold dp_process_document
      rw [hfs]
      rfl
    rw [hres]
    constructor
    · simp
    · simp
  · simp only [dp_process_document]
    rw [hfs]
    simp only [Option.isNone_some, Bool.false_eq_true, if_false, Option.isSome_some,
      true_and]
    by_cases hsup : detect_file_type path ∈ SUPPORTED_FORMATS
    · rw [if_pos hsup]
      cases hdd : (if detect_file_type path = "application/pdf" then pdfH path
          else if detect_file_type path = "text/plain" then process_txt fs path
          else docxH path) with
      | error e =>
        have hsh := dp_dispatch_error_shape fs pdfH docxH path entry hfs
          hp1 hp2 hd1 hd2 e hdd
        constructor
        · constructor
          · intro h
            rcases h with ⟨m, hm⟩
            exact absurd (Except.error.inj hm) (hsh.1 m)
          · intro h
            simp at h
        · constructor
          · intro h
            rcases h with ⟨m, hm⟩
            exact absurd (Except.error.inj hm) (hsh.2 m)
          · intro h
            exact absurd hsup h
      | ok val =>
        constructor
        · constructor
          · intro h
            rcases h with ⟨m, hm⟩
            simp at hm
          · intro h
            simp at h
        · constructor
          · intro h
            rcases h with ⟨m, hm⟩
            simp at hm
          · intro h
            exact absurd hsup h
    · rw [if_neg hsup]
      constructor
      · constructor
        · intro h
          rcases h with ⟨m, hm⟩
          simp at hm
        · intro h
          simp at h
      · constructor
        · intro _
          exact hsup
        · intro _
          exact ⟨detect_file_type path, rfl⟩

/-- A stand-in external extraction engine that fails with an engine
error (it forges neither `FileNotFoundError` nor the unsupported-type
`ValueError`). -/
def engineStub : String → Except PyError (String × PyMeta) :=
  fun _ => .error (.runtimeError "engine failure")

/-- C5 witness: the amended theorem applied to a one-file file system
holding a readable `a.txt`. -/
theorem claim_C5_witness :
    ((∃ m, dp_process_document [("a.txt", FsEntry.file "hello" true)]
        engineStub engineStub "a.txt" = .error (.fileNotFoundError m)) ↔
      fsLookup [("a.txt", FsEntry.file "hello" true)] "a.txt" = none) ∧
    ((∃ m, dp_process_document [("a.txt", FsEntry.file "hello" true)]
        engineStub engineStub "a.txt" =
        .error (.valueError ("Unsupported file type: " ++ m))) ↔
      (fsLookup [("a.txt", FsEntry.file "hello" true)] "a.txt").isSome ∧
        detect_file_type "a.txt" ∉ SUPPORTED_FORMATS) :=
  claim_C5_extract_errors [("a.txt", FsEntry.file "hello" true)]
    engineStub engineStub "a.txt"
    (fun p m h => by simp [engineStub] at h)
    (fun p m h => by simp [engineStub] at h)
    (fun p m h => by simp [engineStub] at h)
    (fun p m h => by simp [engineStub] at h)

/-- C5 (counterexample).  A directory named `d.txt` exists but is not a
readable file; the claim then demands `NotFound`, yet `extract` passes
the existence check, detects `text/plain` and fails with
`IsADirectoryError` from the text handler instead. -/
theorem claim_C5_counterexample :
    fsLookup [("d.txt", FsEntry.dir)] "d.txt" = some FsEntry.dir ∧
    dp_process_document [("d.txt", FsEntry.dir)] engineStub engineStub "d.txt" =
      .error (.isADirectoryError "Is a directory: d.txt") := by
  constructor
  · rfl
  · rfl

/-! ## Claim C8: `find_most_similar` ordering, stability, truncation -/

/-- The output ordering relation: strictly descending score, with equal
scores ordered by ascending candidate index (what a stable descending
sort guarantees on an index-increasing input). -/
def RankedBefore (a b : ℕ × ℝ) : Prop := b.2 ≤ a.2 ∧ (a.2 = b.2 → a.1 < b.1)

/-- Membership through one insertion step. -/
theorem mem_insertDescStable {x z : ℕ × ℝ} :
    ∀ l, z ∈ insertDescStable x l → z = x ∨ z ∈ l := by
  intro l
  induction l with
  | nil => simp [insertDescStable]
  | cons y ys ih =>
    simp only [insertDescStable]
    by_cases h : y.2 ≤ x.2
    · rw [if_pos h]
      intro hz
      simpa [List.mem_cons] using hz
    · rw [if_neg h]
      intro hz
      rcases List.mem_cons.mp hz with rfl | hz
      · exact Or.inr (List.mem_cons_self _ _)
      · rcases ih hz with h' | h'
        · exact Or.inl h'
        · exact Or.inr (List.mem_cons_of_mem _ h')

/-- Membership through the sort. -/
theorem mem_sortDescStable {z : ℕ × ℝ} :
    ∀ {l}, z ∈ sortDescStable l → z ∈ l := by
  intro l
  induction l with
  | nil => simp [sortDescStable]
  | cons x xs ih =>
    intro hz
    rcases mem_insertDescStable _ hz with rfl | hz
    · exact List.mem_cons_self _ _
    · exact List.mem_cons_of_mem _ (ih hz)

/-- Inserting an element whose index exceeds every index already present
preserves the ranking order. -/
theorem pairwise_insertDescStable {x : ℕ × ℝ} :
    ∀ {l}, l.Pairwise RankedBefore → (∀ y ∈ l, x.1 < y.1) →
      (insertDescStable x l).Pairwise RankedBefore := by
  intro l
  induction l with
  | nil => intro _ _; simp [insertDescStable, List.pairwise_singleton]
  | cons y ys ih =>
    intro hp hx
    rw [List.pairwise_cons] at hp
    simp only [insertDescStable]
    by_cases h : y.2 ≤ x.2
    · rw [if_pos h]
      refine List.Pairwise.cons ?_ (List.Pairwise.cons hp.1 hp.2)
      intro z hz
      rcases List.mem_cons.mp hz with rfl | hz
      · exact ⟨h, fun _ => hx z (List.mem_cons_self z ys)⟩
      · exact ⟨le_trans (hp.1 z hz).1 h, fun _ => hx z (List.mem_cons_of_mem _ hz)⟩
    · rw [if_neg h]
      have hxy : x.2 < y.2 := not_le.mp h
      refine List.Pairwise.cons ?_
        (ih hp.2 (fun z hz => hx z (List.mem_cons_of_mem _ hz)))
      intro z hz
      rcases mem_insertDescStable _ hz with rfl | hz
      · exact ⟨le_of_lt hxy, fun heq => absurd heq.symm (ne_of_lt hxy)⟩
      · exact hp.1 z hz

/-- Sorting an index-increasing list yields the ranking order:
descending by score, ties by candidate order. -/
theorem pairwise_sortDescStable :
    ∀ {l : List (ℕ × ℝ)}, l.Pairwise (fun a b => a.1 < b.1) →
      (sortDescStable l).Pairwise RankedBefore := by
  intro l
  induction l with
  | nil => intro _; simp [sortDescStable]
  | cons x xs ih =>
    intro hp
    rw [List.pairwise_cons] at hp
    exact pairwise_insertDescStable (ih hp.2)
      (fun y hy => hp.1 y (mem_sortDescStable hy))

/-- Every element of `enumFromPy n l` has index at least `n`. -/
theorem mem_enumFromPy_le {α : Type} {y : ℕ × α} :
    ∀ (m : ℕ) (l : List α), y ∈ enumFromPy m l → m ≤ y.1 := by
  intro m l
  induction l generalizing m with
  | nil => intro h; simp [enumFromPy] at h
  | cons x xs ih =>
    intro h
    rcases List.mem_cons.mp h with rfl | h
    · exact le_refl _
    · exact le_trans (Nat.le_succ m) (ih (m + 1) h)

/-- Python `enumerate` yields strictly increasing indices. -/
theorem enumFromPy_pairwise {α : Type} :
    ∀ (n : ℕ) (l : List α),
      (enumFromPy n l).Pairwise (fun a b => a.1 < b.1) := by
  intro n l
  induction l generalizing n with
  | nil => simp [enumFromPy]
  | cons x xs ih =>
    refine List.Pairwise.cons ?_ (ih (n + 1))
    intro y hy
    exact lt_of_lt_of_le (Nat.lt_succ_self n) (mem_enumFromPy_le (n + 1) xs hy)

/-- Each enumerated pair points back at its list element. -/
theorem mem_enumFromPy_get {α : Type} {y : ℕ × α} :
    ∀ (m : ℕ) (l : List α), y ∈ enumFromPy m l →
      l.get? (y.1 - m) = some y.2 := by
  intro m l
  induction l generalizing m with
  | nil => intro h; simp [enumFromPy] at h
  | cons x xs ih =>
    intro h
    rcases List.mem_cons.mp h with rfl | h
    · simp
    · have hle := mem_enumFromPy_le (m + 1) xs h
      have hd := ih (m + 1) h
      have hstep : y.1 - m = (y.1 - (m + 1)) + 1 := by omega
      rw [hstep, List.get?_cons_succ]
      exact hd

/-- C8: `find_most_similar` returns at most `top_k` pairs, ordered
descending by score with ties broken by candidate order, and every
returned pair carries the cosine similarity of the candidate it
indexes. -/
theorem claim_C8_most_similar (query : List ℚ) (candidates : List (List ℚ))
    (top_k : ℕ) :
    (find_most_similar query candidates top_k).length ≤ top_k ∧
    (find_most_similar query candidates top_k).Pairwise RankedBefore ∧
    (∀ p ∈ find_most_similar query candidates top_k,
      ∃ c, candidates.get? p.1 = some c ∧ p.2 = compute_similarity query c) := by
  unfold find_most_similar
  by_cases hq : (query.isEmpty || candidates.isEmpty) = true
  · rw [if_pos hq]
    exact ⟨Nat.zero_le _, List.Pairwise.nil, fun p hp => absurd hp (List.not_mem_nil p)⟩
  · rw [if_neg hq]
    refine ⟨List.length_take_le _ _, ?_, ?_⟩
    · refine List.Pairwise.sublist (List.take_sublist _ _) ?_
      refine pairwise_sortDescStable ?_
      rw [List.pairwise_map]
      exact enumFromPy_pairwise 0 candidates
    · intro p hp
      have hp' := mem_sortDescStable ((List.take_sublist _ _).subset hp)
      rcases List.mem_map.mp hp' with ⟨e, he, rfl⟩
      refine ⟨e.2, ?_, rfl⟩
      have := mem_enumFromPy_get 0 candidates he
      simpa using this

/-! ## Claim C4: ingestion returns a structured outcome -/

/-- Every successful return of the `try` body is either the
"no chunks" failure outcome or a success outcome. -/
theorem ragTryBody_ok_shape (fs : FileSystem)
    (pdfH docxH : String → Except PyError (String × PyMeta))
    (splitterRaw : String → List String)
    (enc : List String → Option (List (List ℚ)))
    (store : Store) (freshIds : List String)
    (modelName path : String) (o : Outcome) (st : Store)
    (h : ragTryBody fs pdfH docxH splitterRaw enc store freshIds modelName path =
      .ok (o, st)) :
    o = noChunksOutcome ∨ o.success = true := by
  unfold ragTryBody at h
  cases hdp : dp_process_document fs pdfH docxH path with
  | error e => rw [hdp] at h; simp at h
  | ok dc =>
    rw [hdp] at h
    by_cases hch : (split_text splitterRaw dc.text dc.metadata).isEmpty
    · simp only [hch, if_true] at h
      simp at h
      exact Or.inl h.1.symm
    · simp only [hch, Bool.false_eq_true, if_false] at h
      cases hadd : add_documents store
          ((split_text splitterRaw dc.text dc.metadata).map (fun c => c.content))
          (generate_embeddings enc 32
            ((split_text splitterRaw dc.text dc.metadata).map (fun c => c.content)))
          ((split_text splitterRaw dc.text dc.metadata).map
            (enrichChunkMeta modelName))
          none freshIds with
      | error e => rw [hadd] at h; simp at h
      | ok pr =>
        rw [hadd] at h
        simp at h
        right
        rw [← h.1]

/-- C4 (amended): provided pipeline initialization succeeds (the
`_ensure_initialized` call sits *outside* the `try` block),
`process_document` always returns a structured outcome, and every
failure outcome carries an error message and `chunks_added = 0`;
when initialization fails, a `RuntimeError` escapes instead. -/
theorem claim_C4_structured_outcome (initOk : Bool) (fs : FileSystem)
    (pdfH docxH : String → Except PyError (String × PyMeta))
    (splitterRaw : String → List String)
    (enc : List String → Option (List (List ℚ)))
    (store : Store) (freshIds : List String) (modelName path : String)
    (hinit : initOk = true) :
    ∃ o st,
      rag_process_document initOk fs pdfH docxH splitterRaw enc store freshIds
        modelName path = .ok (o, st) ∧
      (o.success = false → o.chunks_added = 0 ∧ o.error.isSome = true) := by
  subst hinit
  unfold rag_process_document
  rw [if_pos rfl]
  cases hb : ragTryBody fs pdfH docxH splitterRaw enc store freshIds
      modelName path with
  | error e =>
    exact ⟨failOutcome (errMsg e), store, rfl, fun _ => ⟨rfl, rfl⟩⟩
  | ok r =>
    have hb' : ragTryBody fs pdfH docxH splitterRaw enc store freshIds
        modelName path = .ok (r.1, r.2) := by rw [hb]
    refine ⟨r.1, r.2, rfl, ?_⟩
    intro hsucc
    rcases ragTryBody_ok_shape fs pdfH docxH splitterRaw enc store freshIds
        modelName path r.1 r.2 hb' with hnc | htrue
    · rw [hnc]
      exact ⟨rfl, rfl⟩
    · simp [htrue] at hsucc

/-- A one-file file system with a readable text file, used by the C4
witness and counterexample. -/
def fsA : FileSystem := [("a.txt", FsEntry.file "hello world" true)]

/-- A trivial external splitter producing one raw chunk: the whole
text. -/
def splitOne : String → List String := fun t => [t]

/-- C4 witness: the amended theorem applied to a concrete initialized
pipeline ingesting `a.txt`. -/
theorem claim_C4_witness :
    ∃ o st,
      rag_process_document true fsA engineStub engineStub splitOne zeroEnc []
        ["id0"] "all-MiniLM-L6-v2" "a.txt" = .ok (o, st) ∧
      (o.success = false → o.chunks_added = 0 ∧ o.error.isSome = true) :=
  claim_C4_structured_outcome true fsA engineStub engineStub splitOne zeroEnc []
    ["id0"] "all-MiniLM-L6-v2" "a.txt" rfl

/-- C4 (counterexample).  The claim says ingestion never raises past its
boundary; but when the pipeline is not initialized and auto-
initialization fails, `process_document` raises `RuntimeError` before
entering its `try` block. -/
theorem claim_C4_counterexample :
    rag_process_document false fsA engineStub engineStub splitOne zeroEnc []
      ["id0"] "all-MiniLM-L6-v2" "a.txt" =
      .error (.runtimeError "RAG pipeline not initialized") := rfl
